import Mathlib

/-!
Verification of the drag-and-drop seating-chart component
(`src/unnamed/part_000`, the most complete snapshot of `my-dnd-table`).

The state of the component is a list of tiles (each with an `id`,
`preference`, `positionId`, `paddlerName` and a mutable `row` index that
starts out absent) together with a `columns` registry: an ordered
association list from position ids (`"unassigned"`, `"drummer"`,
`"sweep"`, `"bench-<row>-<side>"`) to ordered lists of tile ids.
JavaScript objects preserve string-key insertion order, so the registry
is embedded as an ordered association list, and assigning to a key that
is absent appends it at the end, exactly as in JavaScript.
-/

namespace DndTable

/-- The `POSITIONS` constant object of the source. -/
def POSITIONS.DRUMMER : String := "drummer"

def POSITIONS.SWEEP : String := "sweep"

def POSITIONS.UNASSIGNED : String := "unassigned"

def POSITIONS.BENCH : String := "bench"

/-- The helper `generateBenchPositionId(row, side)` of the source:
builds ids such as `"bench-1-left"`. -/
def generateBenchPositionId (row : Nat) (side : String) : String :=
  POSITIONS.BENCH ++ "-" ++ toString row ++ "-" ++ side

/-- One paddler tile.  `row` is the display index the source later assigns
with `tile.row = index`; it is absent (`none`) initially. -/
structure Tile where
  id : String
  preference : String
  positionId : String
  paddlerName : String
  row : Option Int := none
deriving Repr, DecidableEq

/-- The initial position computed for tile index `k` in `initialTiles`:
index 0 is the drummer, index 1 the sweep, the rest fill bench rows
alternating left/right. -/
def initialTilePositionId (k : Nat) : String :=
  if k = 0 then POSITIONS.DRUMMER
  else if k = 1 then POSITIONS.SWEEP
  else
    let adjustedIndex := k - 2
    let row := adjustedIndex / 2 + 1
    let side := if adjustedIndex % 2 = 0 then "left" else "right"
    generateBenchPositionId row side

/-- The `initialTiles` array of the source: 22 tiles with ids `tile-0` … `tile-21`. -/
def initialTiles : List Tile :=
  (List.range 22).map (fun k =>
    { id := "tile-" ++ toString k
      preference := ""
      positionId := initialTilePositionId k
      paddlerName := "Person " ++ toString (k + 1)
      row := none })

/-- The registry: an ordered association list from position id to the
ordered list of tile ids it holds (JS object insertion order). -/
abbrev Cols := List (String × List String)

/-- Reads `columns[k].tileIds`, with `[]` when the key is absent
(the source reads absent keys only behind `?.tileIds || []`). -/
def getColD (cols : Cols) (k : String) : List String :=
  match cols.find? (fun p => p.1 == k) with
  | some p => p.2
  | none => []

/-- Whether `columns[k]` exists (JS truthiness test on the entry). -/
def hasKey (cols : Cols) (k : String) : Bool :=
  cols.any (fun p => p.1 == k)

/-- Models `nextColumns[k] = \x7b tileIds: v \x7d`: replaces the value of an existing
key in place, or appends a fresh key at the end, as JS assignment does. -/
def assignCol : Cols → String → List String → Cols
  | [], k, v => [(k, v)]
  | p :: rest, k, v =>
      if p.1 == k then (k, v) :: rest else p :: assignCol rest k v

/-- The `initialColumns` skeleton: unassigned, drummer, sweep, then the
twenty bench keys in row order with left before right. -/
def initialColumnsSkeleton : Cols :=
  (POSITIONS.UNASSIGNED, []) :: (POSITIONS.DRUMMER, []) :: (POSITIONS.SWEEP, []) ::
    (List.range 10).foldr
      (fun rowIndex acc =>
        (generateBenchPositionId (rowIndex + 1) "left", []) ::
          (generateBenchPositionId (rowIndex + 1) "right", []) :: acc)
      []

/-- The `initialTiles.forEach` distribution loop: push each tile id onto
its column, falling back to Unassigned for unrecognized position ids. -/
def distributeTiles (cols : Cols) (tiles : List Tile) : Cols :=
  tiles.foldl
    (fun acc tile =>
      if hasKey acc tile.positionId then
        assignCol acc tile.positionId (getColD acc tile.positionId ++ [tile.id])
      else
        assignCol acc POSITIONS.UNASSIGNED
          (getColD acc POSITIONS.UNASSIGNED ++ [tile.id]))
    cols

/-- The component state: the `tiles` array and the `columns` registry. -/
structure AppState where
  tiles : List Tile
  columns : Cols
deriving Repr, DecidableEq

/-- The state right after mount. -/
def initialState : AppState :=
  { tiles := initialTiles
    columns := distributeTiles initialColumnsSkeleton initialTiles }

/-- The lookup `tiles.find(tile => tile.id === id)`. -/
def findTile (tiles : List Tile) (id : String) : Option Tile :=
  tiles.find? (fun t => t.id == id)

/-- Models `Array.prototype.indexOf`: first index of `x`, `-1` when absent. -/
def indexOfAux : List String → String → Int → Int
  | [], _, _ => -1
  | y :: ys, x, i => if y == x then i else indexOfAux ys x (i + 1)

def indexOfJS (l : List String) (x : String) : Int :=
  indexOfAux l x 0

/-- Insert at a clamped natural index. -/
def insertAt : List String → Nat → String → List String
  | l, 0, x => x :: l
  | [], _ + 1, x => [x]
  | y :: ys, j + 1, x => y :: insertAt ys j x

/-- Models `array.splice(i, 0, x)`: JS clamps a negative start to
`max(length + i, 0)` and a positive one to `min(i, length)`. -/
def spliceInsert (l : List String) (i : Int) (x : String) : List String :=
  let n : Int := l.length
  let j : Nat := (if i < 0 then max (n + i) 0 else min i n).toNat
  insertAt l j x

/-- Remove the element at a natural index (no-op when out of range). -/
def removeAtNat : List String → Nat → List String
  | [], _ => []
  | _ :: ys, 0 => ys
  | y :: ys, j + 1 => y :: removeAtNat ys j

/-- The `arrayMove` helper of `@dnd-kit/sortable`: remove the element at `fromIdx`
and re-insert it at `toIdx` (negative `toIdx` counts from the end of the
shortened array).  Its call site guarantees `fromIdx` is a valid index. -/
def arrayMove (l : List String) (fromIdx toIdx : Int) : List String :=
  let f : Nat := (if fromIdx < 0 then max (Int.ofNat l.length + fromIdx) 0
                  else min fromIdx (Int.ofNat l.length)).toNat
  match l.get? f with
  | none => l
  | some x =>
      let rest := removeAtNat l f
      let a : Int := if toIdx < 0 then Int.ofNat rest.length + toIdx else toIdx
      spliceInsert rest a x

/-- Stable insertion used by the sorts below: `strictlyBefore x y` means
`x` must come strictly before `y`; ties keep the original order, which
matches the stable JavaScript `Array.prototype.sort`. -/
def insertBefore (strictlyBefore : α → α → Bool) : List α → α → List α
  | [], x => [x]
  | y :: ys, x =>
      if strictlyBefore x y then x :: y :: ys else y :: insertBefore strictlyBefore ys x

/-- Stable sort (insertion sort, equal elements keep source order). -/
def stableSortBy (strictlyBefore : α → α → Bool) (l : List α) : List α :=
  l.foldl (insertBefore strictlyBefore) []

/-- The row-reindexing pattern of the source: filter the tiles of column
`colId`, sort them by their index in `order` (missing ids index as `-1`),
and pair each id with its rank. -/
def rankForColumn (tiles : List Tile) (colId : String) (order : List String) :
    List (String × Int) :=
  let inCol := tiles.filter (fun t => t.positionId == colId)
  let sorted := stableSortBy (fun a b => indexOfJS order a.id < indexOfJS order b.id) inCol
  sorted.enum.map (fun p => (p.2.id, (p.1 : Int)))

/-- Write the computed ranks back into the `row` fields (tile ids are
unique, so updating every matching tile equals the source's
find-first-and-assign loop). -/
def applyRowRanks (tiles : List Tile) (ranks : List (String × Int)) : List Tile :=
  tiles.map (fun t =>
    match ranks.find? (fun p => p.1 == t.id) with
    | some p => { t with row := some p.2 }
    | none => t)

/-- The occupied single-tile-zone branch of `onDragEnd`.  Note that the
Unassigned update reads `columns[UNASSIGNED]` of the *old* state, exactly
as the source does. -/
def dropOnOccupiedZone (s : AppState)
    (draggedTileId sourcePositionId destinationColumnId originalTileId : String) :
    AppState :=
  let nextColumns1 := assignCol s.columns sourcePositionId
    ((getColD s.columns sourcePositionId).filter (fun id => id != draggedTileId))
  let nextColumns2 := assignCol nextColumns1 POSITIONS.UNASSIGNED
    (getColD s.columns POSITIONS.UNASSIGNED ++ [originalTileId])
  let nextColumns3 := assignCol nextColumns2 destinationColumnId [draggedTileId]
  let nextTiles1 := s.tiles.map (fun t =>
    if t.id == draggedTileId then { t with positionId := destinationColumnId } else t)
  let nextTiles2 := nextTiles1.map (fun t =>
    if t.id == originalTileId then { t with positionId := POSITIONS.UNASSIGNED } else t)
  { tiles := nextTiles2, columns := nextColumns3 }

/-- The empty single-tile-zone branch of `onDragEnd`. -/
def dropOnEmptyZone (s : AppState)
    (draggedTileId sourcePositionId destinationColumnId : String) : AppState :=
  let nextColumns1 := assignCol s.columns sourcePositionId
    ((getColD s.columns sourcePositionId).filter (fun id => id != draggedTileId))
  let nextColumns2 := assignCol nextColumns1 destinationColumnId [draggedTileId]
  let nextTiles1 := s.tiles.map (fun t =>
    if t.id == draggedTileId then { t with positionId := destinationColumnId } else t)
  { tiles := nextTiles1, columns := nextColumns2 }

/-- The drop-index computation at the top of the Unassigned branch of
`onDragEnd`: the hovered tile's index in the Unassigned list (decremented
when reordering downward within the pool), the list length when dropped
on the bare container, and `none` on the defensive error return. -/
def unassignedDropIndex (currentUnassignedTileIds : List String)
    (draggedTileId sourcePositionId overId : String)
    (droppedOverTileInUnassigned : Option Tile) : Option Int :=
  match droppedOverTileInUnassigned with
  | some ot =>
      let i := indexOfJS currentUnassignedTileIds ot.id
      let iAdj :=
        if sourcePositionId == POSITIONS.UNASSIGNED
            && indexOfJS currentUnassignedTileIds draggedTileId != -1
            && decide (indexOfJS currentUnassignedTileIds draggedTileId < i) then
          i - 1
        else i
      some iAdj
  | none =>
      if overId == POSITIONS.UNASSIGNED then
        some (Int.ofNat currentUnassignedTileIds.length)
      else none

/-- The state update of the Unassigned branch of `onDragEnd`, once a drop
index has been determined. -/
def dropIntoUnassignedCore (s : AppState) (draggedTileId sourcePositionId : String)
    (dropIndexInUnassigned : Int) : AppState :=
  let currentUnassignedTileIds := getColD s.columns POSITIONS.UNASSIGNED
  let step1 :=
    if sourcePositionId != POSITIONS.UNASSIGNED then
      let c := assignCol s.columns sourcePositionId
        ((getColD s.columns sourcePositionId).filter (fun id => id != draggedTileId))
      let ranked := rankForColumn s.tiles sourcePositionId (getColD c sourcePositionId)
      (c, applyRowRanks s.tiles ranked)
    else (s.columns, s.tiles)
  let cols1 := step1.1
  let tiles1 := step1.2
  let newUnassignedTileIds :=
    if sourcePositionId != POSITIONS.UNASSIGNED then
      spliceInsert currentUnassignedTileIds dropIndexInUnassigned draggedTileId
    else
      let oldIndex := indexOfJS currentUnassignedTileIds draggedTileId
      if oldIndex != -1 then
        arrayMove currentUnassignedTileIds oldIndex dropIndexInUnassigned
      else currentUnassignedTileIds
  let cols2 := assignCol cols1 POSITIONS.UNASSIGNED newUnassignedTileIds
  let tiles2 := tiles1.map (fun t =>
    if t.id == draggedTileId then
      { t with positionId := POSITIONS.UNASSIGNED
               row := some (indexOfJS newUnassignedTileIds draggedTileId) }
    else t)
  let ranked := rankForColumn tiles2 POSITIONS.UNASSIGNED newUnassignedTileIds
  let tiles3 := applyRowRanks tiles2 ranked
  { tiles := tiles3, columns := cols2 }

/-- The Unassigned (sortable list) branch of `onDragEnd`. -/
def dropIntoUnassigned (s : AppState) (draggedTileId sourcePositionId overId : String)
    (droppedOverTileInUnassigned : Option Tile) : AppState :=
  match unassignedDropIndex (getColD s.columns POSITIONS.UNASSIGNED) draggedTileId
      sourcePositionId overId droppedOverTileInUnassigned with
  | none => s
  | some dropIndexInUnassigned =>
      dropIntoUnassignedCore s draggedTileId sourcePositionId dropIndexInUnassigned

/-- The common tail of `onDragEnd` once the destination column is
resolved: bail out when the source column is unknown, then dispatch on
whether the destination is a single-tile zone. -/
def applyDrop (s : AppState) (draggedTileId sourcePositionId destinationColumnId : String)
    (droppedOverTileInUnassigned : Option Tile) (overId : String) : AppState :=
  if hasKey s.columns sourcePositionId then
    if destinationColumnId != POSITIONS.UNASSIGNED then
      match getColD s.columns destinationColumnId with
      | originalTileId :: _ =>
          dropOnOccupiedZone s draggedTileId sourcePositionId destinationColumnId
            originalTileId
      | [] => dropOnEmptyZone s draggedTileId sourcePositionId destinationColumnId
    else dropIntoUnassigned s draggedTileId sourcePositionId overId
      droppedOverTileInUnassigned
  else s

/-- The `onDragEnd` handler of `part_000`.  `activeCurrentPositionId` is the position
captured at drag start (`active.data.current.currentPositionId`); `over`
is `null` when the drop landed outside every droppable. -/
def onDragEnd (s : AppState) (activeId activeCurrentPositionId : String)
    (over : Option String) : AppState :=
  match over with
  | none => s
  | some overId =>
      if activeId == overId then s
      else if (findTile s.tiles activeId).isNone then s
      else
        let overTile := findTile s.tiles overId
        let isOverTileInUnassigned :=
          match overTile with
          | some t => t.positionId == POSITIONS.UNASSIGNED
          | none => false
        if overId == POSITIONS.UNASSIGNED then
          applyDrop s activeId activeCurrentPositionId POSITIONS.UNASSIGNED none overId
        else if hasKey s.columns overId then
          applyDrop s activeId activeCurrentPositionId overId none overId
        else if isOverTileInUnassigned then
          applyDrop s activeId activeCurrentPositionId POSITIONS.UNASSIGNED overTile
            overId
        else s

/-- The `for (const columnId in nextColumns)` loop of `handleUnassignAll`:
walks the registry in key order, skipping Unassigned; for every other
column it appends the column's ids to the accumulator, clears the column
and retargets the matching tiles' `positionId` to Unassigned. -/
def unassignLoop : Cols → List String → List Tile → Cols × List String × List Tile
  | [], acc, tiles => ([], acc, tiles)
  | (k, ids) :: rest, acc, tiles =>
      if k == POSITIONS.UNASSIGNED then
        let r := unassignLoop rest acc tiles
        ((k, ids) :: r.1, r.2.1, r.2.2)
      else
        let tiles1 := tiles.map (fun t =>
          if t.positionId == k then { t with positionId := POSITIONS.UNASSIGNED } else t)
        let r := unassignLoop rest (acc ++ ids) tiles1
        ((k, []) :: r.1, r.2.1, r.2.2)

/-- The `handleUnassignAll` handler of the source. -/
def handleUnassignAll (s : AppState) : AppState :=
  let startUA := getColD s.columns POSITIONS.UNASSIGNED
  let r := unassignLoop s.columns startUA s.tiles
  let cols2 := assignCol r.1 POSITIONS.UNASSIGNED r.2.1
  let ranked := rankForColumn r.2.2 POSITIONS.UNASSIGNED r.2.1
  let tiles2 := applyRowRanks r.2.2 ranked
  { tiles := tiles2, columns := cols2 }

/-- The `handlePaddlerNameChange` handler of the source. -/
def handlePaddlerNameChange (s : AppState) (tileId newName : String) : AppState :=
  { s with tiles := s.tiles.map (fun t =>
      if t.id == tileId then { t with paddlerName := newName } else t) }

/-- The `handlePreferenceChange` handler of the source. -/
def handlePreferenceChange (s : AppState) (tileId newPreference : String) : AppState :=
  { s with tiles := s.tiles.map (fun t =>
      if t.id == tileId then { t with preference := newPreference } else t) }

/-- States reachable from the initial load by drop resolutions and
Unassign All invocations. -/
inductive Reachable : AppState → Prop
  | init : Reachable initialState
  | drag (s : AppState) (activeId src : String) (over : Option String) :
      Reachable s → Reachable (onDragEnd s activeId src over)
  | unassignAll (s : AppState) : Reachable s → Reachable (handleUnassignAll s)

/-- Every position except Unassigned holds at most one tile. -/
def SingletonInv (cols : Cols) : Prop :=
  ∀ p ∈ cols, p.1 ≠ POSITIONS.UNASSIGNED → p.2.length ≤ 1

instance : DecidablePred SingletonInv := fun cols =>
  inferInstanceAs (Decidable (∀ p ∈ cols, p.1 ≠ POSITIONS.UNASSIGNED → p.2.length ≤ 1))

/-- The twenty bench keys in registry order. -/
def benchKeys : List String :=
  (List.range 10).foldr
    (fun rowIndex acc =>
      generateBenchPositionId (rowIndex + 1) "left" ::
        generateBenchPositionId (rowIndex + 1) "right" :: acc)
    []

/-- The registry's key order, fixed at mount time. -/
def canonicalKeys : List String :=
  POSITIONS.UNASSIGNED :: POSITIONS.DRUMMER :: POSITIONS.SWEEP :: benchKeys

/-- The non-Unassigned keys of a registry, in registry order. -/
def keysNonUA (cols : Cols) : List String :=
  (cols.filter (fun p => p.1 != POSITIONS.UNASSIGNED)).map Prod.fst

/-- A tile whose `positionId` is not a recognized registry key, used to
exercise the defensive fallback of the initial distribution loop. -/
def strayTile : Tile :=
  { id := "tile-stray"
    preference := ""
    positionId := "no-such-position"
    paddlerName := "Stray"
    row := none }

/-- Scenario-2 state: tile-2 dragged from Bench(1,Left) onto the occupied
Drummer slot, evicting tile-0 into Unassigned. -/
def evictedState : AppState :=
  onDragEnd initialState "tile-2" "bench-1-left" (some "drummer")

/-- From `evictedState`, tile-0 dragged from Unassigned onto the occupied
Sweep slot: the source removal is overwritten by the eviction append. -/
def duplicatedState : AppState :=
  onDragEnd evictedState "tile-0" "unassigned" (some "sweep")

/-- tile-0 dropped onto the Drummer container it already occupies. -/
def selfDropState : AppState :=
  onDragEnd initialState "tile-0" "drummer" (some "drummer")

/-- An axis-aligned rectangle, as measured by the drag toolkit
(`left`/`top` corner plus `width`/`height`). -/
structure Rect where
  left : Int
  top : Int
  width : Int
  height : Int
deriving Repr, DecidableEq

/-- Modelled from the spec: the area of the overlap of two rectangles,
zero when they do not properly intersect (the `getIntersectionRatio`
geometry of `@dnd-kit/core`, which is external to the repository). -/
def intersectionArea (a b : Rect) : Int :=
  let w := min (a.left + a.width) (b.left + b.width) - max a.left b.left
  let h := min (a.top + a.height) (b.top + b.height) - max a.top b.top
  if 0 < w ∧ 0 < h then w * h else 0

/-- Modelled from the spec: `rectIntersection` of `@dnd-kit/core` — the
ids of the containers whose exact bounding boxes properly overlap the
dragged item's collision rectangle, best intersection ratio first, ties
kept in registration order.  The ratio is overlap area over union area;
a positive overlap forces both rectangles to have positive dimensions,
so the union areas are positive and the descending ratio order is the
integer cross-multiplied comparison below. -/
def rectIntersection (collisionRect : Rect) (droppableContainers : List (String × Rect)) :
    List String :=
  let collisions := droppableContainers.filterMap (fun c =>
    let area := intersectionArea c.2 collisionRect
    if 0 < area then
      some (c.1, area,
        c.2.width * c.2.height + collisionRect.width * collisionRect.height - area)
    else none)
  (stableSortBy (fun a b => decide (b.2.1 * a.2.2 < a.2.1 * b.2.2)) collisions).map
    Prod.fst

/-- Squared distance between the centers of two rectangles, scaled by 4
so that it stays an integer. -/
def centerDist2 (a b : Rect) : Int :=
  let dx := (2 * a.left + a.width) - (2 * b.left + b.width)
  let dy := (2 * a.top + a.height) - (2 * b.top + b.height)
  dx * dx + dy * dy

/-- Modelled from the spec: `closestCenter` of `@dnd-kit/core` — all
containers ordered by the distance from their center to the collision
rectangle's center, nearest first, ties kept in registration order. -/
def closestCenter (collisionRect : Rect) (droppableContainers : List (String × Rect)) :
    List String :=
  (stableSortBy
      (fun a b => decide (centerDist2 collisionRect a.2 < centerDist2 collisionRect b.2))
      droppableContainers).map Prod.fst

/-- The `customCollisionDetection` strategy of `part_000`: rectangle intersection
first; only when it reports no collision fall back to closest-center. -/
def customCollisionDetection (collisionRect : Rect)
    (droppableContainers : List (String × Rect)) : List String :=
  let rectCollisions := rectIntersection collisionRect droppableContainers
  if rectCollisions.length > 0 then rectCollisions
  else closestCenter collisionRect droppableContainers

/-- Grow a rectangle by `p` on all four sides. -/
def inflate (r : Rect) (p : Int) : Rect :=
  { left := r.left - p, top := r.top - p, width := r.width + 2 * p, height := r.height + 2 * p }

/-- Modelled from the spec: the hit-test the spec describes, in which the
Unassigned container's hit-box is expanded by `padding` on all sides
while singleton containers keep their exact bounding boxes, with the
nearest-center fallback when nothing contains the pointer.  No snapshot
in the repository implements this padding. -/
def specPaddedHitTest (padding : Int) (collisionRect : Rect)
    (droppableContainers : List (String × Rect)) : List String :=
  let padded := droppableContainers.map (fun c =>
    if c.1 == POSITIONS.UNASSIGNED then (c.1, inflate c.2 padding) else c)
  let hits := rectIntersection collisionRect padded
  if hits.length > 0 then hits else closestCenter collisionRect padded

/-- The concrete geometry for the hit-test comparison: a wide Unassigned
column on the left, a small Drummer box to its right. -/
def hitTestContainers : List (String × Rect) :=
  [(POSITIONS.UNASSIGNED, { left := 0, top := 0, width := 100, height := 100 }),
   (POSITIONS.DRUMMER, { left := 110, top := 0, width := 10, height := 10 })]

/-- A dragged-tile rectangle hovering just outside the Unassigned
column's right edge (within any reasonable padding), far from overlap
with either exact box. -/
def hitTestDragRect : Rect :=
  { left := 101, top := 0, width := 2, height := 2 }

/-! ### Association-list lemmas -/

theorem getColD_cons (p : String × List String) (c : Cols) (k : String) :
    getColD (p :: c) k = if p.1 = k then p.2 else getColD c k := by
  by_cases h : p.1 = k <;> simp [getColD, List.find?_cons, h]

theorem getColD_assignCol_self (c : Cols) (k : String) (v : List String) :
    getColD (assignCol c k v) k = v := by
  induction c with
  | nil => simp [assignCol, getColD, List.find?_cons]
  | cons p rest ih =>
      by_cases h : p.1 = k
      · simp [assignCol, h, getColD, List.find?_cons]
      · simp only [assignCol, beq_iff_eq, h, if_false]
        rw [getColD_cons]
        simp [h, ih]

theorem getColD_assignCol_ne (c : Cols) (k k' : String) (v : List String)
    (h : k' ≠ k) : getColD (assignCol c k v) k' = getColD c k' := by
  have hkk : ¬(k = k') := fun hh => h hh.symm
  induction c with
  | nil =>
      show getColD [(k, v)] k' = getColD [] k'
      rw [getColD_cons, if_neg hkk]
  | cons p rest ih =>
      by_cases hp : p.1 = k
      · simp only [assignCol, beq_iff_eq, hp, if_true]
        rw [getColD_cons, getColD_cons, if_neg hkk, hp, if_neg hkk]
      · simp only [assignCol, beq_iff_eq, hp, if_false]
        rw [getColD_cons, getColD_cons, ih]

theorem hasKey_iff (c : Cols) (k : String) :
    hasKey c k = true ↔ k ∈ c.map Prod.fst := by
  simp [hasKey, List.any_eq_true, List.mem_map]

theorem assignCol_map_fst (c : Cols) (k : String) (v : List String)
    (h : hasKey c k = true) : (assignCol c k v).map Prod.fst = c.map Prod.fst := by
  induction c with
  | nil => simp [hasKey] at h
  | cons p rest ih =>
      by_cases hp : p.1 = k
      · simp [assignCol, hp]
      · have h' : hasKey rest k = true := by
          simpa [hasKey, List.any_cons, hp] using h
        simp [assignCol, hp, ih h']

theorem assignCol_assignCol (c : Cols) (k : String) (v w : List String) :
    assignCol (assignCol c k v) k w = assignCol c k w := by
  induction c with
  | nil => simp [assignCol]
  | cons p rest ih =>
      by_cases hp : p.1 = k
      · simp [assignCol, hp]
      · simp [assignCol, hp, ih]

theorem mem_assignCol (c : Cols) (k : String) (v : List String)
    (p : String × List String) (h : p ∈ assignCol c k v) :
    p = (k, v) ∨ p ∈ c := by
  induction c with
  | nil => simpa [assignCol] using h
  | cons q rest ih =>
      by_cases hq : q.1 = k
      · simp only [assignCol, beq_iff_eq, hq, if_true, List.mem_cons] at h
        rcases h with h | h
        · exact Or.inl h
        · exact Or.inr (List.mem_cons_of_mem _ h)
      · simp only [assignCol, beq_iff_eq, hq, if_false, List.mem_cons] at h
        rcases h with h | h
        · exact Or.inr (by simp [h])
        · rcases ih h with h' | h'
          · exact Or.inl h'
          · exact Or.inr (List.mem_cons_of_mem _ h')

/-! ### The singleton-occupancy invariant -/

theorem singletonInv_assignCol {c : Cols} {k : String} {v : List String}
    (h : SingletonInv c) (hv : k = POSITIONS.UNASSIGNED ∨ v.length ≤ 1) :
    SingletonInv (assignCol c k v) := by
  intro p hp hne
  rcases mem_assignCol c k v p hp with rfl | hmem
  · rcases hv with hv | hv
    · exact absurd hv hne
    · exact hv
  · exact h p hmem hne

theorem singletonInv_getColD {c : Cols} {k : String}
    (h : SingletonInv c) (hk : k ≠ POSITIONS.UNASSIGNED) :
    (getColD c k).length ≤ 1 := by
  unfold getColD
  cases hfind : c.find? (fun p => p.1 == k) with
  | none => simp
  | some p =>
      have hmem := List.mem_of_find?_eq_some hfind
      have hkey : p.1 = k := by
        have := List.find?_some hfind
        simpa using this
      exact h p hmem (hkey ▸ hk)

theorem singletonInv_dropOnOccupiedZone {s : AppState} {d src dest o : String}
    (h : SingletonInv s.columns) :
    SingletonInv (dropOnOccupiedZone s d src dest o).columns := by
  unfold dropOnOccupiedZone
  refine singletonInv_assignCol (singletonInv_assignCol (singletonInv_assignCol h ?_)
    (Or.inl rfl)) (Or.inr (by simp))
  by_cases hsrc : src = POSITIONS.UNASSIGNED
  · exact Or.inl hsrc
  · exact Or.inr (le_trans (List.length_filter_le _ _) (singletonInv_getColD h hsrc))

theorem singletonInv_dropOnEmptyZone {s : AppState} {d src dest : String}
    (h : SingletonInv s.columns) :
    SingletonInv (dropOnEmptyZone s d src dest).columns := by
  unfold dropOnEmptyZone
  refine singletonInv_assignCol (singletonInv_assignCol h ?_) (Or.inr (by simp))
  by_cases hsrc : src = POSITIONS.UNASSIGNED
  · exact Or.inl hsrc
  · exact Or.inr (le_trans (List.length_filter_le _ _) (singletonInv_getColD h hsrc))

theorem singletonInv_dropIntoUnassignedCore {s : AppState} {d src : String} {i : Int}
    (h : SingletonInv s.columns) :
    SingletonInv (dropIntoUnassignedCore s d src i).columns := by
  unfold dropIntoUnassignedCore
  by_cases hsrc : src = POSITIONS.UNASSIGNED
  · simp only [bne, hsrc, beq_self_eq_true, Bool.not_true, Bool.false_eq_true, if_false]
    exact singletonInv_assignCol h (Or.inl rfl)
  · have hb : (src != POSITIONS.UNASSIGNED) = true := by simp [bne, hsrc]
    simp only [hb, if_true]
    refine singletonInv_assignCol (singletonInv_assignCol h ?_) (Or.inl rfl)
    exact Or.inr (le_trans (List.length_filter_le _ _) (singletonInv_getColD h hsrc))

theorem singletonInv_dropIntoUnassigned {s : AppState} {d src overId : String}
    {ot : Option Tile} (h : SingletonInv s.columns) :
    SingletonInv (dropIntoUnassigned s d src overId ot).columns := by
  unfold dropIntoUnassigned
  split
  · exact h
  · exact singletonInv_dropIntoUnassignedCore h

theorem singletonInv_applyDrop {s : AppState} {d src dest : String}
    {ot : Option Tile} {overId : String} (h : SingletonInv s.columns) :
    SingletonInv (applyDrop s d src dest ot overId).columns := by
  unfold applyDrop
  split
  · split
    · split
      · exact singletonInv_dropOnOccupiedZone h
      · exact singletonInv_dropOnEmptyZone h
    · exact singletonInv_dropIntoUnassigned h
  · exact h

theorem singletonInv_onDragEnd {s : AppState} {a src : String} {over : Option String}
    (h : SingletonInv s.columns) :
    SingletonInv (onDragEnd s a src over).columns := by
  unfold onDragEnd
  split
  · exact h
  · split
    · exact h
    · split
      · exact h
      · dsimp only
        split
        · exact singletonInv_applyDrop h
        · split
          · exact singletonInv_applyDrop h
          · split
            · exact singletonInv_applyDrop h
            · exact h

theorem unassignLoop_cols (cols : Cols) (acc : List String) (tiles : List Tile) :
    (unassignLoop cols acc tiles).1 =
      cols.map (fun p => if p.1 = POSITIONS.UNASSIGNED then p else (p.1, [])) := by
  induction cols generalizing acc tiles with
  | nil => simp [unassignLoop]
  | cons p rest ih =>
      obtain ⟨k, ids⟩ := p
      by_cases hk : k = POSITIONS.UNASSIGNED
      · simp [unassignLoop, hk, ih]
      · simp [unassignLoop, hk, ih]

theorem singletonInv_handleUnassignAll (s : AppState) :
    SingletonInv (handleUnassignAll s).columns := by
  unfold handleUnassignAll
  dsimp only
  refine singletonInv_assignCol ?_ (Or.inl rfl)
  rw [unassignLoop_cols]
  intro p hp hne
  rcases List.mem_map.mp hp with ⟨q, hq, hpq⟩
  by_cases hqk : q.1 = POSITIONS.UNASSIGNED
  · rw [if_pos hqk] at hpq
    exact absurd (hpq ▸ hqk) hne
  · rw [if_neg hqk] at hpq
    simp [← hpq]

/-- C6: in every reachable state, every position other than Unassigned
(Drummer, Sweep, and each Bench slot) holds at most one tile: its
occupant list has length 0 or 1 after every drop resolution and every
Unassign All. -/
theorem c6_singleton_occupancy (s : AppState) (h : Reachable s) :
    SingletonInv s.columns := by
  induction h with
  | init => decide
  | drag s a src over _ ih => exact singletonInv_onDragEnd ih
  | unassignAll s _ _ => exact singletonInv_handleUnassignAll s

/-- Witness for C6 at the initial state. -/
theorem c6_singleton_occupancy_witness : SingletonInv initialState.columns :=
  c6_singleton_occupancy initialState Reachable.init

/-! ### The registry's key list is fixed -/

theorem hasKey_eq_of_map_fst {c1 c2 : Cols}
    (h : c1.map Prod.fst = c2.map Prod.fst) (k : String) :
    hasKey c1 k = hasKey c2 k := by
  by_cases hm : k ∈ c2.map Prod.fst
  · rw [(hasKey_iff c1 k).mpr (h ▸ hm), (hasKey_iff c2 k).mpr hm]
  · have h1 : hasKey c1 k ≠ true := fun hh => hm (h ▸ (hasKey_iff c1 k).mp hh)
    have h2 : hasKey c2 k ≠ true := fun hh => hm ((hasKey_iff c2 k).mp hh)
    rw [Bool.eq_false_iff.mpr h1, Bool.eq_false_iff.mpr h2]

theorem keys_dropOnOccupiedZone {s : AppState} {d src dest o : String}
    (hsrc : hasKey s.columns src = true)
    (hua : hasKey s.columns POSITIONS.UNASSIGNED = true)
    (hdest : hasKey s.columns dest = true) :
    (dropOnOccupiedZone s d src dest o).columns.map Prod.fst =
      s.columns.map Prod.fst := by
  unfold dropOnOccupiedZone
  dsimp only
  have h1 := assignCol_map_fst s.columns src
    ((getColD s.columns src).filter (fun id => id != d)) hsrc
  have h2 := assignCol_map_fst _ POSITIONS.UNASSIGNED
    (getColD s.columns POSITIONS.UNASSIGNED ++ [o])
    ((hasKey_eq_of_map_fst h1 POSITIONS.UNASSIGNED).trans hua)
  have h3 := assignCol_map_fst _ dest [d]
    ((hasKey_eq_of_map_fst (h2.trans h1) dest).trans hdest)
  rw [h3, h2, h1]

theorem keys_dropOnEmptyZone {s : AppState} {d src dest : String}
    (hsrc : hasKey s.columns src = true)
    (hdest : hasKey s.columns dest = true) :
    (dropOnEmptyZone s d src dest).columns.map Prod.fst =
      s.columns.map Prod.fst := by
  unfold dropOnEmptyZone
  dsimp only
  have h1 := assignCol_map_fst s.columns src
    ((getColD s.columns src).filter (fun id => id != d)) hsrc
  have h2 := assignCol_map_fst _ dest [d]
    ((hasKey_eq_of_map_fst h1 dest).trans hdest)
  rw [h2, h1]

theorem keys_dropIntoUnassignedCore {s : AppState} {d src : String} {i : Int}
    (hsrc : hasKey s.columns src = true)
    (hua : hasKey s.columns POSITIONS.UNASSIGNED = true) :
    (dropIntoUnassignedCore s d src i).columns.map Prod.fst =
      s.columns.map Prod.fst := by
  unfold dropIntoUnassignedCore
  by_cases hs : src = POSITIONS.UNASSIGNED
  · simp only [bne, hs, beq_self_eq_true, Bool.not_true, Bool.false_eq_true, if_false]
    exact assignCol_map_fst _ _ _ hua
  · have hb : (src != POSITIONS.UNASSIGNED) = true := by simp [bne, hs]
    simp only [hb, if_true]
    have h1 := assignCol_map_fst s.columns src
      ((getColD s.columns src).filter (fun id => id != d)) hsrc
    have hua1 : hasKey (assignCol s.columns src
        ((getColD s.columns src).filter (fun id => id != d)))
        POSITIONS.UNASSIGNED = true :=
      (hasKey_eq_of_map_fst h1 POSITIONS.UNASSIGNED).trans hua
    rw [assignCol_map_fst _ _ _ hua1, h1]

theorem keys_applyDrop {s : AppState} {d src dest : String} {ot : Option Tile}
    {overId : String}
    (hua : hasKey s.columns POSITIONS.UNASSIGNED = true)
    (hdest : dest = POSITIONS.UNASSIGNED ∨ hasKey s.columns dest = true) :
    (applyDrop s d src dest ot overId).columns.map Prod.fst =
      s.columns.map Prod.fst := by
  unfold applyDrop
  split
  · rename_i hsrc
    split
    · rename_i hne
      have hdest' : hasKey s.columns dest = true := by
        rcases hdest with h | h
        · exact absurd h (by simpa [bne] using hne)
        · exact h
      split
      · exact keys_dropOnOccupiedZone hsrc hua hdest'
      · exact keys_dropOnEmptyZone hsrc hdest'
    · unfold dropIntoUnassigned
      split
      · rfl
      · exact keys_dropIntoUnassignedCore hsrc hua
  · rfl

theorem keys_onDragEnd {s : AppState} {a src : String} {over : Option String}
    (hua : hasKey s.columns POSITIONS.UNASSIGNED = true) :
    (onDragEnd s a src over).columns.map Prod.fst = s.columns.map Prod.fst := by
  unfold onDragEnd
  split
  · rfl
  · split
    · rfl
    · split
      · rfl
      · dsimp only
        split
        · exact keys_applyDrop hua (Or.inl rfl)
        · split
          · rename_i hover
            exact keys_applyDrop hua (Or.inr hover)
          · split
            · exact keys_applyDrop hua (Or.inl rfl)
            · rfl

theorem keys_handleUnassignAll {s : AppState}
    (hua : hasKey s.columns POSITIONS.UNASSIGNED = true) :
    (handleUnassignAll s).columns.map Prod.fst = s.columns.map Prod.fst := by
  unfold handleUnassignAll
  dsimp only
  have hloop : ((unassignLoop s.columns (getColD s.columns POSITIONS.UNASSIGNED)
      s.tiles).1).map Prod.fst = s.columns.map Prod.fst := by
    rw [unassignLoop_cols, List.map_map]
    refine List.map_congr_left ?_
    intro p _
    by_cases hp : p.1 = POSITIONS.UNASSIGNED <;> simp [hp]
  have h2 := assignCol_map_fst _ POSITIONS.UNASSIGNED
    (unassignLoop s.columns (getColD s.columns POSITIONS.UNASSIGNED) s.tiles).2.1
    ((hasKey_eq_of_map_fst hloop POSITIONS.UNASSIGNED).trans hua)
  rw [h2, hloop]

/-- In every reachable state the registry holds exactly the 23 mount-time
keys, in mount order. -/
theorem reachable_keys {s : AppState} (h : Reachable s) :
    s.columns.map Prod.fst = canonicalKeys := by
  induction h with
  | init => decide
  | drag s a src over _ ih =>
      have hua : hasKey s.columns POSITIONS.UNASSIGNED = true := by
        rw [hasKey_iff, ih]
        decide
      rw [keys_onDragEnd hua, ih]
  | unassignAll s _ ih =>
      have hua : hasKey s.columns POSITIONS.UNASSIGNED = true := by
        rw [hasKey_iff, ih]
        decide
      rw [keys_handleUnassignAll hua, ih]

/-! ### Characterizing the Unassign All loop -/

theorem UN_not_mem_keysNonUA (c : Cols) : POSITIONS.UNASSIGNED ∉ keysNonUA c := by
  intro hmem
  rcases List.mem_map.mp hmem with ⟨p, hp, hfst⟩
  have := List.of_mem_filter hp
  rw [hfst] at this
  simp [bne] at this

theorem keysNonUA_eq (c : Cols) :
    keysNonUA c = (c.map Prod.fst).filter (fun k => k != POSITIONS.UNASSIGNED) := by
  induction c with
  | nil => rfl
  | cons p rest ih =>
      by_cases hp : p.1 = POSITIONS.UNASSIGNED
      · simp [keysNonUA, List.filter_cons, hp, bne] at ih ⊢
        exact ih
      · have hb : (p.1 != POSITIONS.UNASSIGNED) = true := by simp [bne, hp]
        simp [keysNonUA, List.filter_cons, hb] at ih ⊢
        exact ih

theorem unassignLoop_acc (cols : Cols) (acc : List String) (tiles : List Tile) :
    (unassignLoop cols acc tiles).2.1 =
      acc ++ ((cols.filter (fun p => p.1 != POSITIONS.UNASSIGNED)).map Prod.snd).flatten := by
  induction cols generalizing acc tiles with
  | nil => simp [unassignLoop]
  | cons p rest ih =>
      obtain ⟨k, ids⟩ := p
      by_cases hk : k = POSITIONS.UNASSIGNED
      · have hb : (k != POSITIONS.UNASSIGNED) = false := by simp [bne, hk]
        simp only [unassignLoop, beq_iff_eq, hk, if_true, List.filter_cons]
        rw [ih]
        simp [hb, hk]
      · have hb : (k != POSITIONS.UNASSIGNED) = true := by simp [bne, hk]
        simp only [unassignLoop, beq_iff_eq, hk, if_false, List.filter_cons]
        rw [ih]
        simp [hb, List.append_assoc]

theorem unassignLoop_tiles (cols : Cols) (acc : List String) (tiles : List Tile) :
    (unassignLoop cols acc tiles).2.2 =
      tiles.map (fun t =>
        if t.positionId ∈ keysNonUA cols then
          { t with positionId := POSITIONS.UNASSIGNED }
        else t) := by
  induction cols generalizing acc tiles with
  | nil =>
      simp [unassignLoop, keysNonUA]
  | cons p rest ih =>
      obtain ⟨k, ids⟩ := p
      by_cases hk : k = POSITIONS.UNASSIGNED
      · subst hk
        have hkeys : keysNonUA ((POSITIONS.UNASSIGNED, ids) :: rest) = keysNonUA rest := by
          simp [keysNonUA, List.filter_cons]
        simp only [unassignLoop, beq_self_eq_true, if_true]
        rw [ih, hkeys]
      · have hkeys : keysNonUA ((k, ids) :: rest) = k :: keysNonUA rest := by
          have hb : (k != POSITIONS.UNASSIGNED) = true := by simp [bne, hk]
          simp [keysNonUA, List.filter_cons, hb]
        simp only [unassignLoop, beq_iff_eq, hk, if_false]
        rw [ih, hkeys, List.map_map]
        refine List.map_congr_left ?_
        intro t _
        by_cases hpk : t.positionId = k
        · have hUN : POSITIONS.UNASSIGNED ∉ keysNonUA rest := UN_not_mem_keysNonUA rest
          simp [Function.comp, hpk, hUN]
        · by_cases hmem : t.positionId ∈ keysNonUA rest <;>
            simp [Function.comp, hpk, hmem]

theorem applyRowRanks_positionId (ts : List Tile) (r : List (String × Int)) :
    (applyRowRanks ts r).map Tile.positionId = ts.map Tile.positionId := by
  unfold applyRowRanks
  rw [List.map_map]
  refine List.map_congr_left ?_
  intro t _
  simp only [Function.comp]
  cases hf : r.find? (fun p => p.1 == t.id) <;> simp [hf]

theorem applyRowRanks_id (ts : List Tile) (r : List (String × Int)) :
    (applyRowRanks ts r).map Tile.id = ts.map Tile.id := by
  unfold applyRowRanks
  rw [List.map_map]
  refine List.map_congr_left ?_
  intro t _
  simp only [Function.comp]
  cases hf : r.find? (fun p => p.1 == t.id) <;> simp [hf]

theorem getColD_cleared (cols : Cols) (k : String) (hk : k ≠ POSITIONS.UNASSIGNED) :
    getColD (cols.map
      (fun p => if p.1 = POSITIONS.UNASSIGNED then p else (p.1, []))) k = [] := by
  induction cols with
  | nil => rfl
  | cons p rest ih =>
      by_cases hp : p.1 = POSITIONS.UNASSIGNED
      · have hne : p.1 ≠ k := by
          rw [hp]
          exact fun hh => hk hh.symm
        rw [List.map_cons, if_pos hp, getColD_cons, if_neg hne, ih]
      · by_cases hpk : p.1 = k
        · rw [List.map_cons, if_neg hp, getColD_cons, if_pos hpk]
        · rw [List.map_cons, if_neg hp, getColD_cons, if_neg hpk, ih]

theorem filterFlat_eq (cols : Cols) (ks : List String)
    (h : cols.map Prod.fst = ks) (hnd : ks.Nodup) :
    ((cols.filter (fun p => p.1 != POSITIONS.UNASSIGNED)).map Prod.snd).flatten =
      ((ks.filter (fun k => k != POSITIONS.UNASSIGNED)).map
        (fun k => getColD cols k)).flatten := by
  induction cols generalizing ks with
  | nil =>
      subst h
      rfl
  | cons p rest ih =>
      subst h
      have hnd' := hnd
      rw [List.map_cons, List.nodup_cons] at hnd'
      obtain ⟨hnotmem, hndrest⟩ := hnd'
      have hrest : ∀ k ∈ (rest.map Prod.fst).filter
          (fun k => k != POSITIONS.UNASSIGNED), getColD ((p :: rest) : Cols) k = getColD rest k := by
        intro k hkmem
        have hkm : k ∈ rest.map Prod.fst := List.mem_of_mem_filter hkmem
        have hne : p.1 ≠ k := fun hh => hnotmem (hh ▸ hkm)
        rw [getColD_cons, if_neg hne]
      by_cases hp : p.1 = POSITIONS.UNASSIGNED
      · have hb : (p.1 != POSITIONS.UNASSIGNED) = false := by simp [bne, hp]
        rw [List.map_cons, List.filter_cons, List.filter_cons, hb, hp]
        simp only [bne_self_eq_false, Bool.false_eq_true, if_false]
        rw [ih (rest.map Prod.fst) rfl hndrest]
        congr 1
        refine List.map_congr_left ?_
        intro k hk
        exact (hrest k (by simpa [hp] using hk)).symm
      · have hb : (p.1 != POSITIONS.UNASSIGNED) = true := by simp [bne, hp]
        rw [List.map_cons, List.filter_cons, List.filter_cons, hb]
        simp only [if_true]
        rw [List.map_cons, List.map_cons, List.flatten_cons, List.flatten_cons]
        rw [getColD_cons, if_pos rfl]
        rw [ih (rest.map Prod.fst) rfl hndrest]
        congr 1
        congr 1
        refine List.map_congr_left ?_
        intro k hk
        exact (hrest k hk).symm

/-- C5: after any single invocation of Unassign All from a reachable
state, every singleton position's list is empty; the Unassigned list is
its prior content followed by the former occupants of the singleton
positions in the fixed iteration order Drummer, Sweep, then bench rows
ascending with Left before Right; and every moved tile's position field
is set to Unassigned (all other position fields unchanged). -/
theorem c5_unassign_all (s : AppState) (hs : Reachable s) :
    (∀ k ∈ canonicalKeys, k ≠ POSITIONS.UNASSIGNED →
        getColD (handleUnassignAll s).columns k = [])
    ∧ getColD (handleUnassignAll s).columns POSITIONS.UNASSIGNED =
        getColD s.columns POSITIONS.UNASSIGNED ++
          (getColD s.columns POSITIONS.DRUMMER ++
            (getColD s.columns POSITIONS.SWEEP ++
              (benchKeys.map (fun k => getColD s.columns k)).flatten))
    ∧ (handleUnassignAll s).tiles.map Tile.positionId =
        s.tiles.map (fun t =>
          if t.positionId ≠ POSITIONS.UNASSIGNED ∧ t.positionId ∈ canonicalKeys then
            POSITIONS.UNASSIGNED
          else t.positionId) := by
  have hkeys := reachable_keys hs
  refine ⟨?_, ?_, ?_⟩
  · intro k _ hkne
    show getColD (handleUnassignAll s).columns k = []
    unfold handleUnassignAll
    dsimp only
    rw [getColD_assignCol_ne _ _ _ _ hkne, unassignLoop_cols]
    exact getColD_cleared _ _ hkne
  · show getColD (handleUnassignAll s).columns POSITIONS.UNASSIGNED = _
    unfold handleUnassignAll
    dsimp only
    rw [getColD_assignCol_self, unassignLoop_acc]
    congr 1
    rw [filterFlat_eq s.columns canonicalKeys hkeys (by decide)]
    have hf : canonicalKeys.filter (fun k => k != POSITIONS.UNASSIGNED) =
        POSITIONS.DRUMMER :: POSITIONS.SWEEP :: benchKeys := by decide
    rw [hf]
    simp [List.flatten_cons]
  · show (handleUnassignAll s).tiles.map Tile.positionId = _
    unfold handleUnassignAll
    dsimp only
    rw [applyRowRanks_positionId, unassignLoop_tiles, List.map_map]
    refine List.map_congr_left ?_
    intro t _
    simp only [Function.comp]
    have hcond : keysNonUA s.columns =
        canonicalKeys.filter (fun k => k != POSITIONS.UNASSIGNED) := by
      rw [keysNonUA_eq, hkeys]
    by_cases hmem : t.positionId ∈ canonicalKeys.filter
        (fun k => k != POSITIONS.UNASSIGNED)
    · have h1 : t.positionId ∈ keysNonUA s.columns := hcond ▸ hmem
      have h2 := List.mem_filter.mp hmem
      have hne : t.positionId ≠ POSITIONS.UNASSIGNED := by simpa [bne] using h2.2
      rw [if_pos h1, if_pos ⟨hne, h2.1⟩]
    · have h1 : t.positionId ∉ keysNonUA s.columns := fun hh => hmem (hcond ▸ hh)
      have h2 : ¬(t.positionId ≠ POSITIONS.UNASSIGNED ∧ t.positionId ∈ canonicalKeys) := by
        rintro ⟨hne, hmemc⟩
        exact hmem (List.mem_filter.mpr ⟨hmemc, by simp [bne, hne]⟩)
      rw [if_neg h1, if_neg h2]

/-- Witness for C5: the theorem applied at the initial state. -/
theorem c5_unassign_all_witness :
    (∀ k ∈ canonicalKeys, k ≠ POSITIONS.UNASSIGNED →
        getColD (handleUnassignAll initialState).columns k = [])
    ∧ getColD (handleUnassignAll initialState).columns POSITIONS.UNASSIGNED =
        getColD initialState.columns POSITIONS.UNASSIGNED ++
          (getColD initialState.columns POSITIONS.DRUMMER ++
            (getColD initialState.columns POSITIONS.SWEEP ++
              (benchKeys.map (fun k => getColD initialState.columns k)).flatten))
    ∧ (handleUnassignAll initialState).tiles.map Tile.positionId =
        initialState.tiles.map (fun t =>
          if t.positionId ≠ POSITIONS.UNASSIGNED ∧ t.positionId ∈ canonicalKeys then
            POSITIONS.UNASSIGNED
          else t.positionId) :=
  c5_unassign_all initialState Reachable.init

/-! ### Unassign All is idempotent -/

theorem clear_map_fst (d : Cols) :
    (d.map (fun p => if p.1 = POSITIONS.UNASSIGNED then p else (p.1, ([] : List String)))).map
        Prod.fst = d.map Prod.fst := by
  rw [List.map_map]
  refine List.map_congr_left ?_
  intro p _
  by_cases hp : p.1 = POSITIONS.UNASSIGNED <;> simp [hp]

theorem clear_clear (d : Cols) :
    (d.map (fun p => if p.1 = POSITIONS.UNASSIGNED then p else (p.1, ([] : List String)))).map
        (fun p => if p.1 = POSITIONS.UNASSIGNED then p else (p.1, ([] : List String))) =
      d.map (fun p => if p.1 = POSITIONS.UNASSIGNED then p else (p.1, ([] : List String))) := by
  rw [List.map_map]
  refine List.map_congr_left ?_
  intro p _
  by_cases hp : p.1 = POSITIONS.UNASSIGNED <;> simp [hp]

theorem clear_assignCol_UN (d : Cols) (x : List String) :
    (assignCol d POSITIONS.UNASSIGNED x).map
        (fun p => if p.1 = POSITIONS.UNASSIGNED then p else (p.1, ([] : List String))) =
      assignCol (d.map
        (fun p => if p.1 = POSITIONS.UNASSIGNED then p else (p.1, ([] : List String))))
        POSITIONS.UNASSIGNED x := by
  induction d with
  | nil => simp [assignCol]
  | cons p rest ih =>
      by_cases hp : p.1 = POSITIONS.UNASSIGNED
      · simp [assignCol, hp]
      · simp [assignCol, hp, ih]

theorem snd_nil_of_mem_clear {d : Cols} {p : String × List String}
    (hp : p ∈ d.map
      (fun p => if p.1 = POSITIONS.UNASSIGNED then p else (p.1, ([] : List String))))
    (hne : p.1 ≠ POSITIONS.UNASSIGNED) : p.2 = [] := by
  rcases List.mem_map.mp hp with ⟨q, _, hq⟩
  by_cases hqk : q.1 = POSITIONS.UNASSIGNED
  · rw [if_pos hqk] at hq
    exact absurd (hq ▸ hqk) hne
  · rw [if_neg hqk] at hq
    simp [← hq]

theorem flatten_filter_nil {cols : Cols}
    (h : ∀ p ∈ cols, p.1 ≠ POSITIONS.UNASSIGNED → p.2 = []) :
    ((cols.filter (fun p => p.1 != POSITIONS.UNASSIGNED)).map Prod.snd).flatten = [] := by
  induction cols with
  | nil => rfl
  | cons p rest ih =>
      rw [List.filter_cons]
      by_cases hp : p.1 = POSITIONS.UNASSIGNED
      · have hb : (p.1 != POSITIONS.UNASSIGNED) = false := by simp [bne, hp]
        rw [hb]
        simp only [Bool.false_eq_true, if_false]
        exact ih (fun q hq hqne => h q (List.mem_cons_of_mem _ hq) hqne)
      · have hb : (p.1 != POSITIONS.UNASSIGNED) = true := by simp [bne, hp]
        rw [hb]
        simp only [if_true, List.map_cons, List.flatten_cons]
        rw [h p (List.mem_cons_self _ _) hp,
          ih (fun q hq hqne => h q (List.mem_cons_of_mem _ hq) hqne)]
        rfl

theorem keysNonUA_assignCol_UN (d : Cols) (x : List String) :
    keysNonUA (assignCol d POSITIONS.UNASSIGNED x) = keysNonUA d := by
  induction d with
  | nil => rfl
  | cons p rest ih =>
      by_cases hp : p.1 = POSITIONS.UNASSIGNED
      · simp only [assignCol, beq_iff_eq, hp, if_true]
        simp [keysNonUA, List.filter_cons, hp, bne]
      · simp only [assignCol, beq_iff_eq, hp, if_false]
        have hb : (p.1 != POSITIONS.UNASSIGNED) = true := by simp [bne, hp]
        simp [keysNonUA, List.filter_cons, hb] at ih ⊢
        exact ih

theorem keysNonUA_clear (d : Cols) :
    keysNonUA (d.map
      (fun p => if p.1 = POSITIONS.UNASSIGNED then p else (p.1, ([] : List String)))) =
      keysNonUA d := by
  rw [keysNonUA_eq, keysNonUA_eq, clear_map_fst]

theorem insertBefore_map {α β : Type} (f : α → β) (cmp : α → α → Bool)
    (cmp' : β → β → Bool) (h : ∀ a b, cmp' (f a) (f b) = cmp a b)
    (l : List α) (x : α) :
    insertBefore cmp' (l.map f) (f x) = (insertBefore cmp l x).map f := by
  induction l with
  | nil => rfl
  | cons y ys ih =>
      simp only [List.map_cons, insertBefore, h]
      by_cases hc : cmp x y
      · rw [if_pos hc, if_pos hc]
        rfl
      · rw [if_neg hc, if_neg hc, List.map_cons, ih]

theorem stableSortBy_map {α β : Type} (f : α → β) (cmp : α → α → Bool)
    (cmp' : β → β → Bool) (h : ∀ a b, cmp' (f a) (f b) = cmp a b) (l : List α) :
    stableSortBy cmp' (l.map f) = (stableSortBy cmp l).map f := by
  have aux : ∀ (l : List α) (acc : List α),
      (l.map f).foldl (insertBefore cmp') (acc.map f) =
        (l.foldl (insertBefore cmp) acc).map f := by
    intro l
    induction l with
    | nil => intro acc; rfl
    | cons x xs ih =>
        intro acc
        simp only [List.map_cons, List.foldl_cons]
        rw [insertBefore_map f cmp cmp' h, ih]
  simpa using aux l []

theorem rankForColumn_applyRowRanks (ts : List Tile) (r : List (String × Int))
    (colId : String) (order : List String) :
    rankForColumn (applyRowRanks ts r) colId order = rankForColumn ts colId order := by
  unfold rankForColumn applyRowRanks
  dsimp only
  rw [List.filter_map]
  have hfil : ts.filter ((fun t => t.positionId == colId) ∘ fun t =>
      match r.find? (fun p => p.1 == t.id) with
      | some p => { t with row := some p.2 }
      | none => t) = ts.filter (fun t => t.positionId == colId) := by
    refine List.filter_congr ?_
    intro t _
    simp only [Function.comp]
    cases hf : r.find? (fun p => p.1 == t.id) <;> simp [hf]
  rw [hfil]
  have hsortcomm := stableSortBy_map
    (fun t => match r.find? (fun p => p.1 == t.id) with
      | some p => { t with row := some p.2 }
      | none => t)
    (fun a b => decide (indexOfJS order a.id < indexOfJS order b.id))
    (fun a b => decide (indexOfJS order a.id < indexOfJS order b.id))
    (by
      intro a b
      cases hfa : r.find? (fun p => p.1 == a.id) <;>
        cases hfb : r.find? (fun p => p.1 == b.id) <;> simp [hfa, hfb])
    (ts.filter (fun t => t.positionId == colId))
  rw [hsortcomm, List.enum_map, List.map_map]
  refine List.map_congr_left ?_
  intro p _
  simp only [Function.comp, Prod.map]
  cases hf : r.find? (fun q => q.1 == p.2.id) <;> simp [hf]

theorem applyRowRanks_idem (ts : List Tile) (r : List (String × Int)) :
    applyRowRanks (applyRowRanks ts r) r = applyRowRanks ts r := by
  unfold applyRowRanks
  rw [List.map_map]
  refine List.map_congr_left ?_
  intro t _
  simp only [Function.comp]
  cases hf : r.find? (fun p => p.1 == t.id) <;> simp [hf]

theorem appState_ext {a b : AppState} (h1 : a.tiles = b.tiles)
    (h2 : a.columns = b.columns) : a = b := by
  cases a
  cases b
  cases h1
  cases h2
  rfl

theorem handleUnassignAll_columns (s : AppState) :
    (handleUnassignAll s).columns =
      assignCol (s.columns.map
          (fun p => if p.1 = POSITIONS.UNASSIGNED then p else (p.1, ([] : List String))))
        POSITIONS.UNASSIGNED
        (getColD s.columns POSITIONS.UNASSIGNED ++
          ((s.columns.filter (fun p => p.1 != POSITIONS.UNASSIGNED)).map
            Prod.snd).flatten) := by
  unfold handleUnassignAll
  dsimp only
  rw [unassignLoop_cols, unassignLoop_acc]

theorem handleUnassignAll_tiles (s : AppState) :
    (handleUnassignAll s).tiles =
      applyRowRanks
        (s.tiles.map (fun t =>
          if t.positionId ∈ keysNonUA s.columns then
            { t with positionId := POSITIONS.UNASSIGNED }
          else t))
        (rankForColumn
          (s.tiles.map (fun t =>
            if t.positionId ∈ keysNonUA s.columns then
              { t with positionId := POSITIONS.UNASSIGNED }
            else t))
          POSITIONS.UNASSIGNED
          (getColD s.columns POSITIONS.UNASSIGNED ++
            ((s.columns.filter (fun p => p.1 != POSITIONS.UNASSIGNED)).map
              Prod.snd).flatten)) := by
  unfold handleUnassignAll
  dsimp only
  rw [unassignLoop_tiles, unassignLoop_acc]

theorem handleUnassignAll_idem (s : AppState) :
    handleUnassignAll (handleUnassignAll s) = handleUnassignAll s := by
  have hclears : (handleUnassignAll s).columns.map
      (fun p => if p.1 = POSITIONS.UNASSIGNED then p else (p.1, ([] : List String))) =
      (handleUnassignAll s).columns := by
    rw [handleUnassignAll_columns, clear_assignCol_UN, clear_clear]
  have hflat : (((handleUnassignAll s).columns.filter
      (fun p => p.1 != POSITIONS.UNASSIGNED)).map Prod.snd).flatten = [] := by
    refine flatten_filter_nil ?_
    intro p hp hne
    rw [handleUnassignAll_columns] at hp
    rcases mem_assignCol _ _ _ _ hp with rfl | hmem
    · exact absurd rfl hne
    · exact snd_nil_of_mem_clear hmem hne
  have hua : getColD (handleUnassignAll s).columns POSITIONS.UNASSIGNED =
      getColD s.columns POSITIONS.UNASSIGNED ++
        ((s.columns.filter (fun p => p.1 != POSITIONS.UNASSIGNED)).map
          Prod.snd).flatten := by
    rw [handleUnassignAll_columns, getColD_assignCol_self]
  have hkeysNon : keysNonUA (handleUnassignAll s).columns = keysNonUA s.columns := by
    rw [handleUnassignAll_columns, keysNonUA_assignCol_UN, keysNonUA_clear]
  have hmove : (handleUnassignAll s).tiles.map (fun t =>
      if t.positionId ∈ keysNonUA (handleUnassignAll s).columns then
        { t with positionId := POSITIONS.UNASSIGNED }
      else t) = (handleUnassignAll s).tiles := by
    have hpos : ∀ t ∈ (handleUnassignAll s).tiles,
        t.positionId ∉ keysNonUA s.columns := by
      intro t ht
      rw [handleUnassignAll_tiles] at ht
      rcases List.mem_map.mp ht with ⟨t1, ht1, hft⟩
      have hposeq : t.positionId = t1.positionId := by
        rw [← hft]
        cases hf : (rankForColumn
            (s.tiles.map (fun u =>
              if u.positionId ∈ keysNonUA s.columns then
                { u with positionId := POSITIONS.UNASSIGNED }
              else u))
            POSITIONS.UNASSIGNED
            (getColD s.columns POSITIONS.UNASSIGNED ++
              ((s.columns.filter (fun p => p.1 != POSITIONS.UNASSIGNED)).map
                Prod.snd).flatten)).find? (fun p => p.1 == t1.id) <;> simp [hf]
      rcases List.mem_map.mp ht1 with ⟨t0, _, hft0⟩
      rw [hposeq, ← hft0]
      by_cases hmem : t0.positionId ∈ keysNonUA s.columns
      · rw [if_pos hmem]
        exact UN_not_mem_keysNonUA s.columns
      · rw [if_neg hmem]
        exact hmem
    conv_rhs => rw [← List.map_id (handleUnassignAll s).tiles]
    refine List.map_congr_left ?_
    intro t ht
    rw [hkeysNon, if_neg (hpos t ht)]
    rfl
  refine appState_ext ?_ ?_
  · rw [handleUnassignAll_tiles (handleUnassignAll s)]
    rw [hmove, hua, hflat, List.append_nil]
    rw [handleUnassignAll_tiles s]
    rw [rankForColumn_applyRowRanks, applyRowRanks_idem]
  · rw [handleUnassignAll_columns (handleUnassignAll s)]
    rw [hclears, hua, hflat, List.append_nil]
    rw [handleUnassignAll_columns s, assignCol_assignCol]

/-- C8: Unassign All is idempotent — for every reachable state, invoking
it twice in succession yields the same registry and tile state as
invoking it once (so invoking it again when all singleton positions are
already empty changes nothing). -/
theorem c8_unassign_all_idempotent (s : AppState) (_hs : Reachable s) :
    handleUnassignAll (handleUnassignAll s) = handleUnassignAll s :=
  handleUnassignAll_idem s

/-- Witness for C8 at the initial state: the second invocation leaves the
all-unassigned state unchanged. -/
theorem c8_unassign_all_idempotent_witness :
    handleUnassignAll (handleUnassignAll initialState) =
      handleUnassignAll initialState :=
  c8_unassign_all_idempotent initialState Reachable.init

/-! ### Editing name and preference is frame-preserving -/

/-- C10: editing a tile's name or preference changes only that one field
of that one tile — every tile's id, position and row, every other tile's
name and preference, and the whole registry (including the Unassigned
list and its order) are unchanged, and the edited tile's field becomes
the new value. -/
theorem c10_edit_frame (s : AppState) (tileId v : String) :
    ((handlePaddlerNameChange s tileId v).columns = s.columns)
    ∧ ((handlePaddlerNameChange s tileId v).tiles.map Tile.id = s.tiles.map Tile.id)
    ∧ ((handlePaddlerNameChange s tileId v).tiles.map Tile.positionId =
        s.tiles.map Tile.positionId)
    ∧ ((handlePaddlerNameChange s tileId v).tiles.map Tile.preference =
        s.tiles.map Tile.preference)
    ∧ ((handlePaddlerNameChange s tileId v).tiles.map Tile.row = s.tiles.map Tile.row)
    ∧ ((handlePaddlerNameChange s tileId v).tiles.map
        (fun t => if t.id = tileId then none else some t.paddlerName) =
        s.tiles.map (fun t => if t.id = tileId then none else some t.paddlerName))
    ∧ ((handlePaddlerNameChange s tileId v).tiles.map
        (fun t => if t.id = tileId then some t.paddlerName else none) =
        s.tiles.map (fun t => if t.id = tileId then some v else none))
    ∧ ((handlePreferenceChange s tileId v).columns = s.columns)
    ∧ ((handlePreferenceChange s tileId v).tiles.map Tile.id = s.tiles.map Tile.id)
    ∧ ((handlePreferenceChange s tileId v).tiles.map Tile.positionId =
        s.tiles.map Tile.positionId)
    ∧ ((handlePreferenceChange s tileId v).tiles.map Tile.paddlerName =
        s.tiles.map Tile.paddlerName)
    ∧ ((handlePreferenceChange s tileId v).tiles.map Tile.row = s.tiles.map Tile.row)
    ∧ ((handlePreferenceChange s tileId v).tiles.map
        (fun t => if t.id = tileId then none else some t.preference) =
        s.tiles.map (fun t => if t.id = tileId then none else some t.preference))
    ∧ ((handlePreferenceChange s tileId v).tiles.map
        (fun t => if t.id = tileId then some t.preference else none) =
        s.tiles.map (fun t => if t.id = tileId then some v else none)) := by
  refine ⟨rfl, ?_, ?_, ?_, ?_, ?_, ?_, rfl, ?_, ?_, ?_, ?_, ?_, ?_⟩ <;>
    · simp only [handlePaddlerNameChange, handlePreferenceChange]
      rw [List.map_map]
      refine List.map_congr_left ?_
      intro t _
      by_cases h : t.id = tileId <;> simp [h, Function.comp]

/-- Witness for C10: editing tile-0's name leaves the registry alone. -/
theorem c10_edit_frame_witness :
    (handlePaddlerNameChange initialState "tile-0" "Avery").columns =
        initialState.columns
    ∧ (handlePaddlerNameChange initialState "tile-0" "Avery").tiles.map
        Tile.positionId = initialState.tiles.map Tile.positionId :=
  ⟨(c10_edit_frame initialState "tile-0" "Avery").1,
   (c10_edit_frame initialState "tile-0" "Avery").2.2.1⟩

/-! ### The initial seeding -/

/-- C9: the initial load assigns exactly 22 tiles deterministically —
tile-0 to Drummer, tile-1 to Sweep, tiles 2..21 to bench rows 1..10
alternating Left then Right — with the Unassigned list empty; and a tile
whose computed position is not a recognized key falls back to
Unassigned. -/
theorem c9_initial_seeding :
    initialState.tiles.length = 22
    ∧ getColD initialState.columns POSITIONS.DRUMMER = ["tile-0"]
    ∧ getColD initialState.columns POSITIONS.SWEEP = ["tile-1"]
    ∧ (∀ j : Nat, j < 20 →
        getColD initialState.columns
          (generateBenchPositionId (j / 2 + 1) (if j % 2 = 0 then "left" else "right")) =
          ["tile-" ++ toString (j + 2)])
    ∧ getColD initialState.columns POSITIONS.UNASSIGNED = []
    ∧ (∀ t : Tile, hasKey initialColumnsSkeleton t.positionId = false →
        getColD (distributeTiles initialColumnsSkeleton [t]) POSITIONS.UNASSIGNED =
          [t.id]) := by
  refine ⟨by decide, by decide, by decide, by decide, by decide, ?_⟩
  intro t ht
  have h0 : getColD initialColumnsSkeleton POSITIONS.UNASSIGNED = [] := rfl
  unfold distributeTiles
  rw [List.foldl_cons, List.foldl_nil]
  simp only [ht, Bool.false_eq_true, if_false]
  rw [getColD_assignCol_self, h0]
  rfl

/-- Witness for C9: bench index 3 lands tile-5 on Bench(2,Right), and a
tile with an unrecognized position id falls back to Unassigned. -/
theorem c9_initial_seeding_witness :
    (3 < 20 ∧ getColD initialState.columns
        (generateBenchPositionId (3 / 2 + 1) (if 3 % 2 = 0 then "left" else "right")) =
        ["tile-" ++ toString (3 + 2)])
    ∧ (hasKey initialColumnsSkeleton strayTile.positionId = false ∧
        getColD (distributeTiles initialColumnsSkeleton [strayTile])
          POSITIONS.UNASSIGNED = [strayTile.id]) :=
  ⟨⟨by decide, c9_initial_seeding.2.2.2.1 3 (by decide)⟩,
   ⟨by decide, c9_initial_seeding.2.2.2.2.2 strayTile (by decide)⟩⟩

/-! ### Concrete bug evaluations -/

/-- C1: dragging a tile whose source is the Unassigned pool onto an
occupied singleton slot does NOT remove it from the Unassigned list —
the eviction append reads the stale registry and overwrites the source
removal.  From `evictedState` (Unassigned = [tile-0]), dragging tile-0
onto the occupied Sweep slot leaves Unassigned = [tile-0, tile-1]
although the claim requires [tile-1]. -/
theorem c1_eviction_from_unassigned_bug :
    getColD evictedState.columns POSITIONS.UNASSIGNED = ["tile-0"]
    ∧ (findTile evictedState.tiles "tile-0").map Tile.positionId =
        some POSITIONS.UNASSIGNED
    ∧ getColD duplicatedState.columns POSITIONS.SWEEP = ["tile-0"]
    ∧ getColD duplicatedState.columns POSITIONS.UNASSIGNED = ["tile-0", "tile-1"] :=
  ⟨by decide, by decide, by decide, by decide⟩

/-- C2: a reachable two-drop sequence (each drop using the dragged
tile's true source position) leaves tile-0 present in two lists at once
— the Sweep list and the Unassigned list — while its own position field
says Sweep, so the exactly-one-list invariant fails on reachable
states. -/
theorem c2_registry_invariant_violated :
    Reachable duplicatedState
    ∧ ((duplicatedState.columns.map Prod.snd).flatten.count "tile-0") = 2
    ∧ (findTile duplicatedState.tiles "tile-0").map Tile.positionId =
        some POSITIONS.SWEEP
    ∧ "tile-0" ∈ getColD duplicatedState.columns POSITIONS.UNASSIGNED :=
  ⟨Reachable.drag evictedState "tile-0" "unassigned" (some "sweep")
      (Reachable.drag initialState "tile-2" "bench-1-left" (some "drummer")
        Reachable.init),
   by decide, by decide, by decide⟩

/-- C4: dropping a tile onto the singleton container it already occupies
is not a no-op — the occupant evicts itself: tile-0 stays in the Drummer
list, is also appended to Unassigned, and its position field flips to
Unassigned. -/
theorem c4_self_container_drop_not_noop :
    selfDropState ≠ initialState
    ∧ getColD selfDropState.columns POSITIONS.DRUMMER = ["tile-0"]
    ∧ getColD selfDropState.columns POSITIONS.UNASSIGNED = ["tile-0"]
    ∧ (findTile selfDropState.tiles "tile-0").map Tile.positionId =
        some POSITIONS.UNASSIGNED :=
  ⟨by decide, by decide, by decide, by decide⟩

/-! ### Resolution of drops whose target is another tile -/

theorem findTile_eq_some_id {ts : List Tile} {x : String} {t : Tile}
    (h : findTile ts x = some t) : t.id = x := by
  unfold findTile at h
  have := List.find?_some h
  simpa using this

theorem findTile_map (f : Tile → Tile) (hf : ∀ t, (f t).id = t.id)
    (ts : List Tile) (x : String) :
    findTile (ts.map f) x = (findTile ts x).map f := by
  induction ts with
  | nil => rfl
  | cons t ts ih =>
      unfold findTile at ih ⊢
      rw [List.map_cons]
      have hcond : ((f t).id == x) = (t.id == x) := by rw [hf]
      cases hb : (t.id == x)
      · rw [List.find?_cons_of_neg _ (by rw [hcond, hb]; exact Bool.false_ne_true),
          List.find?_cons_of_neg _ (by rw [hb]; exact Bool.false_ne_true), ih]
      · rw [List.find?_cons_of_pos _ (by rw [hcond, hb]),
          List.find?_cons_of_pos _ (by rw [hb])]
        rfl

theorem findTile_applyRowRanks (ts : List Tile) (r : List (String × Int)) (x : String) :
    findTile (applyRowRanks ts r) x =
      (findTile ts x).map (fun t =>
        match r.find? (fun p => p.1 == t.id) with
        | some p => { t with row := some p.2 }
        | none => t) := by
  unfold applyRowRanks
  refine findTile_map _ ?_ ts x
  intro t
  cases hf : r.find? (fun p => p.1 == t.id) <;> simp [hf]

theorem dragged_pos_after_retarget (ts : List Tile) (d : String) (nr : Option Int)
    (ranked : List (String × Int)) (h : (findTile ts d).isSome = true) :
    (findTile (applyRowRanks (ts.map (fun t =>
        if t.id == d then
          { t with positionId := POSITIONS.UNASSIGNED, row := nr }
        else t)) ranked) d).map Tile.positionId = some POSITIONS.UNASSIGNED := by
  rw [findTile_applyRowRanks,
    findTile_map _ (fun t => by by_cases hb : t.id = d <;> simp [hb]) ts d]
  cases hft : findTile ts d with
  | none => rw [hft] at h; simp at h
  | some u =>
      have hid : u.id = d := findTile_eq_some_id hft
      subst hid
      simp only [Option.map_map, Option.map_some, Function.comp, beq_self_eq_true,
        if_true]
      cases hf : ranked.find? (fun p => p.1 == u.id) <;> simp [hf]

theorem dropIntoUnassignedCore_dragged_pos (s : AppState) (d src : String) (i : Int)
    (h : (findTile s.tiles d).isSome = true) :
    (findTile (dropIntoUnassignedCore s d src i).tiles d).map Tile.positionId =
      some POSITIONS.UNASSIGNED := by
  unfold dropIntoUnassignedCore
  dsimp only
  by_cases hb : (src != POSITIONS.UNASSIGNED) = true
  · simp only [hb, if_true]
    refine dragged_pos_after_retarget _ d _ _ ?_
    rw [findTile_applyRowRanks]
    cases hft : findTile s.tiles d
    · rw [hft] at h
      simp at h
    · rfl
  · simp only [hb, if_false]
    exact dragged_pos_after_retarget _ d _ _ h

/-- C3 (amended): a drag-end whose `dropTargetId` is another tile's id
resolves to that tile's position only when that tile sits in the
Unassigned pool — the dragged tile then joins the Unassigned list — and
is rejected as an invalid drop (a strict no-op) when the target tile is
unknown or occupies a singleton position. -/
theorem c3_drop_on_tile_resolution (s : AppState)
    (draggedTileId srcPos overId : String)
    (hne : draggedTileId ≠ overId)
    (hnua : overId ≠ POSITIONS.UNASSIGNED)
    (hncol : hasKey s.columns overId = false)
    (hsrc : hasKey s.columns srcPos = true) :
    ((findTile s.tiles overId).isNone = true →
        onDragEnd s draggedTileId srcPos (some overId) = s)
    ∧ (∀ ot : Tile, findTile s.tiles overId = some ot →
        ot.positionId ≠ POSITIONS.UNASSIGNED →
        onDragEnd s draggedTileId srcPos (some overId) = s)
    ∧ (∀ ot : Tile, findTile s.tiles overId = some ot →
        ot.positionId = POSITIONS.UNASSIGNED →
        (findTile s.tiles draggedTileId).isSome = true →
        (findTile (onDragEnd s draggedTileId srcPos (some overId)).tiles
            draggedTileId).map Tile.positionId = some POSITIONS.UNASSIGNED) := by
  have hb1 : (draggedTileId == overId) = false := by simp [hne]
  have hb2 : (overId == POSITIONS.UNASSIGNED) = false := by simp [hnua]
  refine ⟨?_, ?_, ?_⟩
  · intro hnone
    unfold onDragEnd
    rw [Option.isNone_iff_eq_none] at hnone
    simp [hb1, hb2, hncol, hnone]
  · intro ot hot hpos
    unfold onDragEnd
    have hb3 : (ot.positionId == POSITIONS.UNASSIGNED) = false := by simp [hpos]
    simp [hb1, hb2, hncol, hot, hb3]
  · intro ot hot hpos hdr
    unfold onDragEnd
    have hb3 : (ot.positionId == POSITIONS.UNASSIGNED) = true := by simp [hpos]
    have hdr' : (findTile s.tiles draggedTileId).isNone = false := by
      cases hft : findTile s.tiles draggedTileId
      · rw [hft] at hdr
        simp at hdr
      · rfl
    simp only [hb1, Bool.false_eq_true, if_false, hdr', hb2, hncol, hot, hb3,
      if_true]
    unfold applyDrop
    simp only [hsrc, if_true, bne_self_eq_false, Bool.false_eq_true, if_false]
    unfold dropIntoUnassigned unassignedDropIndex
    exact dropIntoUnassignedCore_dragged_pos s draggedTileId srcPos _ hdr

/-- C3 counterexample: at the initial state, `tile-0` occupies Drummer;
dropping `tile-2` onto the id `tile-0` (a tile id, not a container id)
is rejected outright — the state is unchanged and `tile-2` is not placed
into Drummer, contradicting the claim. -/
theorem c3_counterexample :
    hasKey initialState.columns "tile-0" = false
    ∧ (findTile initialState.tiles "tile-0").map Tile.positionId =
        some POSITIONS.DRUMMER
    ∧ onDragEnd initialState "tile-2" "bench-1-left" (some "tile-0") = initialState
    ∧ getColD initialState.columns POSITIONS.DRUMMER = ["tile-0"] :=
  ⟨by decide, by decide, by decide, by decide⟩

/-- Witness for C3 (amended): from `evictedState` (tile-0 parked in
Unassigned), dropping tile-3 onto tile-0 joins the Unassigned pool. -/
theorem c3_drop_on_tile_resolution_witness :
    (findTile (onDragEnd evictedState "tile-3" "bench-1-right"
        (some "tile-0")).tiles "tile-3").map Tile.positionId =
      some POSITIONS.UNASSIGNED :=
  (c3_drop_on_tile_resolution evictedState "tile-3" "bench-1-right" "tile-0"
      (by decide) (by decide) (by decide) (by decide)).2.2
    { id := "tile-0", preference := "", positionId := "unassigned",
      paddlerName := "Person 1", row := none }
    (by decide) (by decide) (by decide)

/-! ### The drop-target hit-test -/

theorem mem_insertBefore {α : Type} (cmp : α → α → Bool) (l : List α) (x y : α) :
    y ∈ insertBefore cmp l x ↔ y = x ∨ y ∈ l := by
  induction l with
  | nil => simp [insertBefore]
  | cons z zs ih =>
      by_cases hc : cmp x z
      · simp [insertBefore, hc]
      · simp [insertBefore, hc, ih]
        tauto

theorem length_insertBefore {α : Type} (cmp : α → α → Bool) (l : List α) (x : α) :
    (insertBefore cmp l x).length = l.length + 1 := by
  induction l with
  | nil => rfl
  | cons z zs ih =>
      by_cases hc : cmp x z
      · simp [insertBefore, hc]
      · simp [insertBefore, hc, ih]

theorem mem_stableSortBy {α : Type} (cmp : α → α → Bool) (l : List α) (x : α) :
    x ∈ stableSortBy cmp l ↔ x ∈ l := by
  have aux : ∀ (l acc : List α),
      x ∈ l.foldl (insertBefore cmp) acc ↔ x ∈ acc ∨ x ∈ l := by
    intro l
    induction l with
    | nil => simp
    | cons y ys ih =>
        intro acc
        rw [List.foldl_cons, ih, mem_insertBefore]
        simp
        tauto
  rw [stableSortBy, aux]
  simp

theorem length_stableSortBy {α : Type} (cmp : α → α → Bool) (l : List α) :
    (stableSortBy cmp l).length = l.length := by
  have aux : ∀ (l acc : List α),
      (l.foldl (insertBefore cmp) acc).length = acc.length + l.length := by
    intro l
    induction l with
    | nil => simp
    | cons y ys ih =>
        intro acc
        rw [List.foldl_cons, ih, length_insertBefore]
        simp only [List.length_cons]
        omega
  rw [stableSortBy, aux]
  simp

/-- C7 (amended): the hit-test is two-phase, but phase one tests the
dragged item's collision rectangle against every container's *exact*
bounding box — the Unassigned container gets no expanded, padded hit-box
— and only when no container's box overlaps does it fall back to the
nearest-drop-center heuristic across all containers. -/
theorem c7_two_phase_exact_boxes (cr : Rect) (cs : List (String × Rect)) :
    ((∀ c ∈ cs, intersectionArea c.2 cr ≤ 0) →
      customCollisionDetection cr cs = closestCenter cr cs)
    ∧ ((∃ c ∈ cs, 0 < intersectionArea c.2 cr) →
      ∀ id ∈ customCollisionDetection cr cs,
        ∃ c ∈ cs, c.1 = id ∧ 0 < intersectionArea c.2 cr) := by
  constructor
  · intro hno
    unfold customCollisionDetection rectIntersection
    dsimp only
    have hnil : cs.filterMap (fun c =>
        if 0 < intersectionArea c.2 cr then
          some (c.1, intersectionArea c.2 cr,
            c.2.width * c.2.height + cr.width * cr.height - intersectionArea c.2 cr)
        else none) = [] := by
      rw [List.filterMap_eq_nil_iff]
      intro c hc
      rw [if_neg (not_lt.mpr (hno c hc))]
    rw [hnil]
    simp [stableSortBy]
  · rintro ⟨c0, hc0, harea⟩ id hid
    have hmem0 : (c0.1, intersectionArea c0.2 cr,
        c0.2.width * c0.2.height + cr.width * cr.height - intersectionArea c0.2 cr) ∈
        cs.filterMap (fun c =>
          if 0 < intersectionArea c.2 cr then
            some (c.1, intersectionArea c.2 cr,
              c.2.width * c.2.height + cr.width * cr.height - intersectionArea c.2 cr)
          else none) :=
      List.mem_filterMap.mpr ⟨c0, hc0, by rw [if_pos harea]⟩
    unfold customCollisionDetection rectIntersection at hid
    dsimp only at hid
    rw [if_pos] at hid
    · rcases List.mem_map.mp hid with ⟨e, he, hefst⟩
      have he' := (mem_stableSortBy _ _ _).mp he
      rcases List.mem_filterMap.mp he' with ⟨c, hc, hfc⟩
      by_cases hpos : 0 < intersectionArea c.2 cr
      · rw [if_pos hpos] at hfc
        refine ⟨c, hc, ?_, hpos⟩
        have he2 := Option.some.inj hfc
        rw [← hefst, ← he2]
      · rw [if_neg hpos] at hfc
        exact absurd hfc (by simp)
    · rw [List.length_map, length_stableSortBy]
      exact List.length_pos.mpr (List.ne_nil_of_mem hmem0)

/-- C7 counterexample: with the Unassigned box at x ∈ [0,100] and the
Drummer box at x ∈ [110,120], a dragged rectangle hovering at
x ∈ [101,103] (inside any padded Unassigned hit-box of the spec, outside
every exact box) is sent to Drummer by the code's nearest-center
fallback, while the spec's padded containment phase (padding 5 as a
representative) selects Unassigned. -/
theorem c7_counterexample :
    customCollisionDetection hitTestDragRect hitTestContainers =
      [POSITIONS.DRUMMER, POSITIONS.UNASSIGNED]
    ∧ specPaddedHitTest 5 hitTestDragRect hitTestContainers = [POSITIONS.UNASSIGNED]
    ∧ 0 < intersectionArea
        (inflate { left := 0, top := 0, width := 100, height := 100 } 5)
        hitTestDragRect :=
  ⟨by decide, by decide, by decide⟩

/-- Witness for C7 (amended): the fallback fires on the hovering
rectangle, and a rectangle overlapping the Unassigned box is resolved by
containment alone. -/
theorem c7_two_phase_exact_boxes_witness :
    (customCollisionDetection hitTestDragRect hitTestContainers =
      closestCenter hitTestDragRect hitTestContainers)
    ∧ (∀ id ∈ customCollisionDetection
        ({ left := 50, top := 50, width := 10, height := 10 } : Rect) hitTestContainers,
        ∃ c ∈ hitTestContainers, c.1 = id ∧
          0 < intersectionArea c.2
            { left := 50, top := 50, width := 10, height := 10 }) :=
  ⟨(c7_two_phase_exact_boxes hitTestDragRect hitTestContainers).1 (by decide),
   (c7_two_phase_exact_boxes
      { left := 50, top := 50, width := 10, height := 10 } hitTestContainers).2
    (by decide)⟩

end DndTable
